import Mathlib

/-!
Shallow embedding of `src/src/lib/userManager.ts` (the Profile Store of the
gaming-platform scaffold) and proofs about it.

Modelling choices:
* JavaScript `number` values that the code only ever uses integrally
  (scores, play times, counters, experience, level, timestamps) are `Int`;
  `averageScore`, which is produced by a division, is `Rat` (exact
  arithmetic in place of IEEE-754 doubles).
* `Math.floor(x / k)` on integers is `Int.fdiv x k` (floor division).
* `Date` timestamps are abstract `Int` instants threaded in as a `now`
  argument to every operation that reads the clock.
* The `gameStats` object with its five fixed keys is a total function
  `Game → GameStats`; `Object.values` enumerates the keys in insertion
  order `Game.all`.
* The singleton store is a `Store` value holding the in-memory
  `currentUser` and the persisted local-storage record (`storage`),
  updated by `saveUser` on every mutation.
* `Array.prototype.sort` with comparator `(a, b) => b.score - a.score` is a
  stable descending-by-score sort; it is modelled by `List.insertionSort`
  with the relation `lbRel a b := b.score ≤ a.score`, which is stable in
  the same sense (earlier elements win ties).
-/

namespace GamePlatform

/-- The fixed game-kind enumeration, the keys of `UserProfile.gameStats`. -/
inductive Game where
  | snake
  | tetris
  | pong
  | memory
  | platformer
deriving DecidableEq, Repr

/-- The key insertion order of the `gameStats` object literal, used by
`Object.values` in `checkAchievements`. -/
def Game.all : List Game :=
  [Game.snake, Game.tetris, Game.pong, Game.memory, Game.platformer]

/-- `Achievement` interface from `userManager.ts`. -/
structure Achievement where
  id : String
  name : String
  description : String
  icon : String
  unlocked : Bool
  unlockedAt : Option Int
deriving DecidableEq, Repr

/-- `GameStats` interface from `userManager.ts`. -/
structure GameStats where
  gamesPlayed : Int
  totalPlayTime : Int
  highScore : Int
  averageScore : Rat
  achievements : List Achievement
  lastPlayed : Option Int
deriving DecidableEq, Repr

/-- `UserProfile` interface from `userManager.ts`. -/
structure UserProfile where
  id : String
  username : String
  avatar : String
  level : Int
  experience : Int
  totalGamesPlayed : Int
  totalPlayTime : Int
  joinDate : Int
  gameStats : Game → GameStats
  globalAchievements : List Achievement

/-- `getDefaultGameStats`. -/
def getDefaultGameStats : GameStats :=
  { gamesPlayed := 0
    totalPlayTime := 0
    highScore := 0
    averageScore := 0
    achievements := []
    lastPlayed := none }

/-- `getDefaultAchievements`: the fixed catalog, all locked. -/
def getDefaultAchievements : List Achievement :=
  [ { id := "first_game", name := "First Steps",
      description := "Play your first game", icon := "🎮",
      unlocked := false, unlockedAt := none },
    { id := "speed_demon", name := "Speed Demon",
      description := "Score 1000+ points in Snake", icon := "⚡",
      unlocked := false, unlockedAt := none },
    { id := "tetris_master", name := "Tetris Master",
      description := "Clear 10 lines in Tetris", icon := "🧱",
      unlocked := false, unlockedAt := none },
    { id := "memory_champion", name := "Memory Champion",
      description := "Complete Memory game in under 30 seconds", icon := "🧠",
      unlocked := false, unlockedAt := none },
    { id := "platformer_pro", name := "Platformer Pro",
      description := "Reach level 5 in Platformer", icon := "🏃",
      unlocked := false, unlockedAt := none },
    { id := "pong_champion", name := "Pong Champion",
      description := "Score 10 points in Pong", icon := "🏓",
      unlocked := false, unlockedAt := none },
    { id := "dedicated_player", name := "Dedicated Player",
      description := "Play for 1 hour total", icon := "⏰",
      unlocked := false, unlockedAt := none },
    { id := "game_master", name := "Game Master",
      description := "Play all 5 games", icon := "👑",
      unlocked := false, unlockedAt := none } ]

/-- `createUser`: fresh profile, id generated from the current time. -/
def createUser (username : String) (now : Int) : UserProfile :=
  { id := "user_" ++ toString now
    username := username
    avatar := "🎮"
    level := 1
    experience := 0
    totalGamesPlayed := 0
    totalPlayTime := 0
    joinDate := now
    gameStats := fun _ => getDefaultGameStats
    globalAchievements := getDefaultAchievements }

/-- Pointwise update of the `gameStats` record at key `g`. -/
def setStats (gs : Game → GameStats) (g : Game) (v : GameStats) : Game → GameStats :=
  fun g' => if g' = g then v else gs g'

/-- `unlockAchievement`, acting on the achievements list: find the first
achievement with the given id; if present and still locked, set
`unlocked := true` and `unlockedAt := now`; otherwise leave the list as is. -/
def unlockIn (achievementId : String) (now : Int) : List Achievement → List Achievement
  | [] => []
  | a :: rest =>
    if a.id = achievementId then
      if a.unlocked then a :: rest
      else { a with unlocked := true, unlockedAt := some now } :: rest
    else a :: unlockIn achievementId now rest

/-- Number of game kinds with `gamesPlayed > 0`
(`Object.values(gameStats).filter(s => s.gamesPlayed > 0).length`). -/
def playedCount (u : UserProfile) : Nat :=
  (Game.all.filter (fun g => (u.gameStats g).gamesPlayed > 0)).length

/-- Conditional unlock: one `if (cond) this.unlockAchievement(id)` step. -/
def applyIf (c : Prop) [Decidable c] (achievementId : String) (now : Int)
    (l : List Achievement) : List Achievement :=
  if c then unlockIn achievementId now l else l

/-- The per-game `switch` of `checkAchievements`. -/
def gameCheck (game : Game) (score playTime now : Int)
    (l : List Achievement) : List Achievement :=
  match game with
  | Game.snake => applyIf (score ≥ 1000) "speed_demon" now l
  | Game.tetris => applyIf (score ≥ 1000) "tetris_master" now l
  | Game.pong => applyIf (score ≥ 10) "pong_champion" now l
  | Game.memory => applyIf (playTime ≤ 30) "memory_champion" now l
  | Game.platformer => applyIf (score ≥ 5000) "platformer_pro" now l

/-- `checkAchievements`, run on the already-updated profile `u`, threading
the achievements list through the four checks in source order. -/
def checkAchievements (u : UserProfile) (game : Game) (score playTime now : Int)
    (l : List Achievement) : List Achievement :=
  applyIf (playedCount u = 5) "game_master" now
    (applyIf (u.totalPlayTime ≥ 3600) "dedicated_player" now
      (gameCheck game score playTime now
        (applyIf (u.totalGamesPlayed = 1) "first_game" now l)))

/-- `updateGameStats` on an active profile: per-game stat update, global
counters, experience, level raise, then achievement evaluation. -/
def updateGameStats (u : UserProfile) (game : Game) (score playTime now : Int) :
    UserProfile :=
  let gs := u.gameStats game
  let gamesPlayed' := gs.gamesPlayed + 1
  let gs' : GameStats :=
    { gs with
      gamesPlayed := gamesPlayed'
      totalPlayTime := gs.totalPlayTime + playTime
      lastPlayed := some now
      highScore := if score > gs.highScore then score else gs.highScore
      averageScore :=
        (gs.averageScore * (((gamesPlayed' - 1 : Int) : Rat)) + (score : Rat)) /
          ((gamesPlayed' : Int) : Rat) }
  let experience' := u.experience + (Int.fdiv score 10 + Int.fdiv playTime 60)
  let newLevel := Int.fdiv experience' 100 + 1
  let base : UserProfile :=
    { u with
      gameStats := setStats u.gameStats game gs'
      totalGamesPlayed := u.totalGamesPlayed + 1
      totalPlayTime := u.totalPlayTime + playTime
      experience := experience'
      level := if newLevel > u.level then newLevel else u.level }
  { base with
    globalAchievements :=
      checkAchievements base game score playTime now base.globalAchievements }

/-- The singleton store: the in-memory profile and the persisted
local-storage record. -/
structure Store where
  currentUser : Option UserProfile
  storage : Option UserProfile

/-- `createUser` at store level: replace the current profile and persist. -/
def createUserStore (_st : Store) (username : String) (now : Int) : Store :=
  let u := createUser username now
  { currentUser := some u, storage := some u }

/-- `getCurrentUser`. -/
def getCurrentUser (st : Store) : Option UserProfile :=
  st.currentUser

/-- `updateGameStats` at store level (`recordSession` in the spec): silent
no-op when no profile is active, otherwise update and persist. -/
def recordSession (st : Store) (game : Game) (score playTime now : Int) : Store :=
  match st.currentUser with
  | none => st
  | some u =>
    let u' := updateGameStats u game score playTime now
    { currentUser := some u', storage := some u' }

/-- `logout`: drop the in-memory profile and the persisted record. -/
def logout (_st : Store) : Store :=
  { currentUser := none, storage := none }

/-- A leaderboard row `{username, score, game?}`. -/
structure LBEntry where
  username : String
  score : Int
  game : Option Game
deriving DecidableEq, Repr

/-- The hard-coded mock leaderboard entries, in source order. -/
def mockData : List LBEntry :=
  [ { username := "ProGamer123", score := 1250, game := some Game.snake },
    { username := "TetrisKing", score := 2500, game := some Game.tetris },
    { username := "MemoryMaster", score := 15, game := some Game.memory },
    { username := "PongChamp", score := 15, game := some Game.pong },
    { username := "JumpHero", score := 8500, game := some Game.platformer } ]

/-- The entry pushed for the current user: present exactly when a profile is
active, a game kind was given, and that game's high score is positive. -/
def userEntries (st : Store) (game : Option Game) : List LBEntry :=
  match st.currentUser, game with
  | some u, some g =>
    if (u.gameStats g).highScore > 0 then
      [{ username := u.username, score := (u.gameStats g).highScore, game := some g }]
    else []
  | _, _ => []

/-- Descending-score ordering used by the leaderboard comparator
`(a, b) => b.score - a.score`. -/
def lbRel (a b : LBEntry) : Prop :=
  b.score ≤ a.score

instance : DecidableRel lbRel := fun a b =>
  inferInstanceAs (Decidable (b.score ≤ a.score))

instance : IsTotal LBEntry lbRel :=
  ⟨fun a b => le_total b.score a.score⟩

instance : IsTrans LBEntry lbRel :=
  ⟨fun _ _ _ h1 h2 => le_trans h2 h1⟩

/-- `getLeaderboard`: mock data plus the optional current-user entry, stably
sorted descending by score, capped at 10 rows. -/
def getLeaderboard (st : Store) (game : Option Game) : List LBEntry :=
  (List.insertionSort lbRel (mockData ++ userEntries st game)).take 10

/-- One `recordSession` call's arguments, `now` being the call's clock
reading. -/
structure Session where
  game : Game
  score : Int
  playTime : Int
  now : Int
deriving DecidableEq, Repr

/-- Run a sequence of `recordSession` calls against an active profile. -/
def runSessions (u : UserProfile) : List Session → UserProfile
  | [] => u
  | s :: rest => runSessions (updateGameStats u s.game s.score s.playTime s.now) rest

/-- First achievement with the given id, as `unlockAchievement`'s `find`. -/
def achFind (achievementId : String) (l : List Achievement) : Option Achievement :=
  l.find? (fun a => a.id = achievementId)

/-- Whether the achievement with the given id is unlocked in the profile. -/
def isUnlocked (u : UserProfile) (achievementId : String) : Bool :=
  match achFind achievementId u.globalAchievements with
  | some a => a.unlocked
  | none => false

/-- The record update performed when an achievement unlocks. -/
def unlockMark (a : Achievement) (now : Int) : Achievement :=
  { a with unlocked := true, unlockedAt := some now }

/-- One achievement-evaluation phase with clock `now` relates `l` to `l'`
when, for every id, the first matching achievement is either untouched or
was locked and is now freshly unlocked at `now`. -/
def StepOk (now : Int) (l l' : List Achievement) : Prop :=
  ∀ aid : String,
    achFind aid l' = achFind aid l ∨
    ∃ a, achFind aid l = some a ∧ a.unlocked = false ∧
      achFind aid l' = some (unlockMark a now)

/-! ### Step lemmas for `updateGameStats` -/

lemma update_gameStats_ne (u : UserProfile) (g : Game) (s t n : Int) (g' : Game)
    (h : g' ≠ g) : (updateGameStats u g s t n).gameStats g' = u.gameStats g' := by
  simp [updateGameStats, setStats, h]

lemma update_gamesPlayed (u : UserProfile) (g : Game) (s t n : Int) :
    ((updateGameStats u g s t n).gameStats g).gamesPlayed =
      (u.gameStats g).gamesPlayed + 1 := by
  simp [updateGameStats, setStats]

lemma update_highScore (u : UserProfile) (g : Game) (s t n : Int) :
    ((updateGameStats u g s t n).gameStats g).highScore =
      max (u.gameStats g).highScore s := by
  simp only [updateGameStats, setStats, if_pos]
  rw [max_def]
  split_ifs <;> omega

lemma update_avg (u : UserProfile) (g : Game) (s t n : Int) :
    ((updateGameStats u g s t n).gameStats g).averageScore =
      ((u.gameStats g).averageScore * (((u.gameStats g).gamesPlayed : Int) : Rat) +
          (s : Rat)) / ((((u.gameStats g).gamesPlayed + 1 : Int)) : Rat) := by
  simp [updateGameStats, setStats]

lemma update_experience (u : UserProfile) (g : Game) (s t n : Int) :
    (updateGameStats u g s t n).experience =
      u.experience + (Int.fdiv s 10 + Int.fdiv t 60) := rfl

lemma update_level (u : UserProfile) (g : Game) (s t n : Int) :
    (updateGameStats u g s t n).level =
      if Int.fdiv (u.experience + (Int.fdiv s 10 + Int.fdiv t 60)) 100 + 1 > u.level
      then Int.fdiv (u.experience + (Int.fdiv s 10 + Int.fdiv t 60)) 100 + 1
      else u.level := rfl

lemma runSessions_cons (u : UserProfile) (x : Session) (L : List Session) :
    runSessions u (x :: L) =
      runSessions (updateGameStats u x.game x.score x.playTime x.now) L := rfl

/-! ### High score: fold-of-max characterisation -/

lemma run_highScore (g : Game) : ∀ (L : List Session) (u : UserProfile),
    (∀ x ∈ L, x.game = g) →
    ((runSessions u L).gameStats g).highScore =
      L.foldl (fun m x => max m x.score) ((u.gameStats g).highScore)
  | [], u, _ => rfl
  | x :: xs, u, hall => by
    have hx : x.game = g := hall x (List.mem_cons_self x xs)
    have hxs : ∀ y ∈ xs, y.game = g := fun y hy => hall y (List.mem_cons_of_mem x hy)
    rw [runSessions_cons, run_highScore g xs _ hxs, hx, update_highScore, List.foldl_cons]

/-! ### Non-negativity of per-game counters -/

lemma nonneg_step (u : UserProfile) (g : Game) (s t n : Int) (g' : Game)
    (h1 : 0 ≤ (u.gameStats g').highScore) (h2 : 0 ≤ (u.gameStats g').gamesPlayed) :
    0 ≤ ((updateGameStats u g s t n).gameStats g').highScore ∧
    0 ≤ ((updateGameStats u g s t n).gameStats g').gamesPlayed := by
  by_cases hg : g' = g
  · subst hg
    rw [update_highScore, update_gamesPlayed]
    exact ⟨le_trans h1 (le_max_left _ _), by omega⟩
  · rw [update_gameStats_ne u g s t n g' hg]
    exact ⟨h1, h2⟩

lemma nonneg_run (g' : Game) : ∀ (L : List Session) (u : UserProfile),
    0 ≤ (u.gameStats g').highScore → 0 ≤ (u.gameStats g').gamesPlayed →
    0 ≤ ((runSessions u L).gameStats g').highScore ∧
    0 ≤ ((runSessions u L).gameStats g').gamesPlayed
  | [], u, h1, h2 => ⟨h1, h2⟩
  | x :: xs, u, h1, h2 => by
    rw [runSessions_cons]
    have := nonneg_step u x.game x.score x.playTime x.now g' h1 h2
    exact nonneg_run g' xs _ this.1 this.2

/-! ### Level monotonicity -/

lemma level_le_step (u : UserProfile) (g : Game) (s t n : Int) :
    u.level ≤ (updateGameStats u g s t n).level := by
  rw [update_level]
  split_ifs <;> omega

lemma level_le_run : ∀ (L : List Session) (u : UserProfile),
    u.level ≤ (runSessions u L).level
  | [], _ => le_refl _
  | x :: xs, u => by
    rw [runSessions_cons]
    exact le_trans (level_le_step u x.game x.score x.playTime x.now) (level_le_run xs _)

/-! ### Experience -/

lemma exp_le_step (u : UserProfile) (g : Game) (s t n : Int)
    (h1 : 0 ≤ s) (h2 : 0 ≤ t) :
    u.experience ≤ (updateGameStats u g s t n).experience := by
  rw [update_experience]
  have d1 : 0 ≤ Int.fdiv s 10 := Int.fdiv_nonneg h1 (by norm_num)
  have d2 : 0 ≤ Int.fdiv t 60 := Int.fdiv_nonneg h2 (by norm_num)
  omega

lemma exp_le_run : ∀ (L : List Session) (u : UserProfile),
    (∀ x ∈ L, 0 ≤ x.score ∧ 0 ≤ x.playTime) →
    u.experience ≤ (runSessions u L).experience
  | [], _, _ => le_refl _
  | x :: xs, u, hall => by
    rw [runSessions_cons]
    have hx := hall x (List.mem_cons_self x xs)
    exact le_trans (exp_le_step u x.game x.score x.playTime x.now hx.1 hx.2)
      (exp_le_run xs _ (fun y hy => hall y (List.mem_cons_of_mem x hy)))

/-! ### Achievement list lemmas -/

lemma achFind_cons (aid : String) (a : Achievement) (rest : List Achievement) :
    achFind aid (a :: rest) = if a.id = aid then some a else achFind aid rest := by
  by_cases h : a.id = aid
  · rw [if_pos h]
    exact List.find?_cons_of_pos _ (by simp [h])
  · rw [if_neg h]
    exact List.find?_cons_of_neg _ (by simp [h])

lemma achFind_unlockIn (aid aid' : String) (now : Int) (l : List Achievement) :
    achFind aid' (unlockIn aid now l) =
      if aid' = aid then
        (achFind aid l).map (fun a => if a.unlocked then a else unlockMark a now)
      else achFind aid' l := by
  induction l with
  | nil =>
    unfold unlockIn
    split_ifs <;> simp [achFind]
  | cons a rest ih =>
    by_cases h2 : aid' = aid
    · subst h2
      by_cases h1 : a.id = aid'
      · by_cases h3 : a.unlocked <;>
          simp [unlockIn, achFind_cons, unlockMark, h1, h3]
      · simp [unlockIn, achFind_cons, h1, ih]
    · have h2' : ¬aid = aid' := fun hc => h2 hc.symm
      by_cases h1 : a.id = aid
      · have h4 : ¬a.id = aid' := by rw [h1]; exact h2'
        by_cases h3 : a.unlocked <;>
          simp [unlockIn, achFind_cons, unlockMark, h1, h2, h2', h3, h4]
      · by_cases h4 : a.id = aid' <;>
          simp [unlockIn, achFind_cons, h1, h2, h4, ih]

lemma stepOk_refl (now : Int) (l : List Achievement) : StepOk now l l :=
  fun _ => Or.inl rfl

lemma stepOk_unlockIn (aid : String) (now : Int) (l : List Achievement) :
    StepOk now l (unlockIn aid now l) := by
  intro aid'
  rw [achFind_unlockIn]
  split_ifs with h
  · subst h
    cases hfind : achFind aid' l with
    | none => left; simp
    | some a =>
      by_cases hu : a.unlocked
      · left; simp [hu]
      · right
        exact ⟨a, rfl, by simp [hu], by simp [hu]⟩
  · left; rfl

lemma stepOk_trans (now : Int) (l m r : List Achievement)
    (h1 : StepOk now l m) (h2 : StepOk now m r) : StepOk now l r := by
  intro aid
  rcases h1 aid with e1 | ⟨a, ha, hu, hm⟩
  · rcases h2 aid with e2 | ⟨b, hb, hub, hr⟩
    · left; rw [e2, e1]
    · right; exact ⟨b, e1 ▸ hb, hub, hr⟩
  · rcases h2 aid with e2 | ⟨b, hb, hub, hr⟩
    · right; exact ⟨a, ha, hu, e2 ▸ hm⟩
    · rw [hm] at hb
      injection hb with hb'
      rw [← hb'] at hub
      exact absurd hub (by simp [unlockMark])

lemma stepOk_applyIf (c : Prop) [Decidable c] (aid : String) (now : Int)
    (l : List Achievement) : StepOk now l (applyIf c aid now l) := by
  unfold applyIf
  split_ifs
  · exact stepOk_unlockIn aid now l
  · exact stepOk_refl now l

lemma stepOk_gameCheck (g : Game) (s t now : Int) (l : List Achievement) :
    StepOk now l (gameCheck g s t now l) := by
  cases g <;> exact stepOk_applyIf _ _ now l

lemma stepOk_check (u : UserProfile) (g : Game) (s t now : Int)
    (l : List Achievement) : StepOk now l (checkAchievements u g s t now l) := by
  unfold checkAchievements
  exact stepOk_trans now _ _ _
    (stepOk_trans now _ _ _
      (stepOk_trans now _ _ _
        (stepOk_applyIf _ _ now l)
        (stepOk_gameCheck g s t now _))
      (stepOk_applyIf _ _ now _))
    (stepOk_applyIf _ _ now _)

lemma stepOk_update (u : UserProfile) (g : Game) (s t n : Int) :
    StepOk n u.globalAchievements (updateGameStats u g s t n).globalAchievements :=
  stepOk_check _ g s t n u.globalAchievements

lemma frozen_of_stepOk {now : Int} {l l' : List Achievement} {aid : String}
    {a : Achievement} (h : StepOk now l l') (ha : achFind aid l = some a)
    (hu : a.unlocked = true) : achFind aid l' = some a := by
  rcases h aid with e | ⟨b, hb, hub, hr⟩
  · rw [e, ha]
  · rw [ha] at hb
    injection hb with hb'
    rw [← hb', hu] at hub
    exact absurd hub (by simp)

lemma frozen_run : ∀ (L : List Session) (u : UserProfile) (aid : String)
    (a : Achievement),
    achFind aid u.globalAchievements = some a → a.unlocked = true →
    achFind aid (runSessions u L).globalAchievements = some a
  | [], _, _, _, ha, _ => ha
  | x :: xs, u, aid, a, ha, hu => by
    rw [runSessions_cons]
    exact frozen_run xs _ aid a
      (frozen_of_stepOk (stepOk_update u x.game x.score x.playTime x.now) ha hu) hu

/-! ### `game_master` bookkeeping -/

lemma achFind_applyIf_ne (c : Prop) [Decidable c] (aid aid' : String) (now : Int)
    (l : List Achievement) (h : aid' ≠ aid) :
    achFind aid' (applyIf c aid now l) = achFind aid' l := by
  unfold applyIf
  split_ifs
  · rw [achFind_unlockIn, if_neg h]
  · rfl

lemma achFind_gm_gameCheck (g : Game) (s t now : Int) (l : List Achievement) :
    achFind "game_master" (gameCheck g s t now l) = achFind "game_master" l := by
  cases g <;> exact achFind_applyIf_ne _ _ _ now l (by decide)

lemma achFind_gm_applyIf (c : Prop) [Decidable c] (now : Int)
    (l : List Achievement) :
    achFind "game_master" (applyIf c "game_master" now l) =
      if c then
        (achFind "game_master" l).map
          (fun a => if a.unlocked then a else unlockMark a now)
      else achFind "game_master" l := by
  unfold applyIf
  split_ifs
  · rw [achFind_unlockIn, if_pos rfl]
  · rfl

lemma achFind_gm_check (u : UserProfile) (g : Game) (s t now : Int)
    (l : List Achievement) :
    achFind "game_master" (checkAchievements u g s t now l) =
      if playedCount u = 5 then
        (achFind "game_master" l).map
          (fun a => if a.unlocked then a else unlockMark a now)
      else achFind "game_master" l := by
  unfold checkAchievements
  rw [achFind_gm_applyIf, achFind_applyIf_ne _ _ _ now _ (by decide),
    achFind_gm_gameCheck, achFind_applyIf_ne _ _ _ now _ (by decide)]

lemma achFind_gm_update (u : UserProfile) (g : Game) (s t n : Int) :
    achFind "game_master" (updateGameStats u g s t n).globalAchievements =
      if playedCount (updateGameStats u g s t n) = 5 then
        (achFind "game_master" u.globalAchievements).map
          (fun a => if a.unlocked then a else unlockMark a n)
      else achFind "game_master" u.globalAchievements := by
  show achFind "game_master" (checkAchievements _ g s t n u.globalAchievements) = _
  rw [achFind_gm_check]
  rfl

lemma filter_length_mono {α : Type} (p q : α → Bool) :
    ∀ l : List α, (∀ x ∈ l, p x = true → q x = true) →
      (l.filter p).length ≤ (l.filter q).length
  | [], _ => le_refl 0
  | x :: xs, h => by
    have ih := filter_length_mono p q xs (fun y hy => h y (List.mem_cons_of_mem x hy))
    by_cases hp : p x = true
    · have hq := h x (List.mem_cons_self x xs) hp
      simp only [List.filter_cons, hp, hq, if_pos, List.length_cons]
      omega
    · by_cases hq : q x = true
      · simp only [List.filter_cons, if_neg hp, hq, if_pos, List.length_cons]
        · omega
      · simp only [List.filter_cons, if_neg hp, if_neg hq]
        exact ih

lemma playedCount_le (u : UserProfile) : playedCount u ≤ 5 :=
  List.length_filter_le _ Game.all

lemma playedCount_mono_step (u : UserProfile) (g : Game) (s t n : Int) :
    playedCount u ≤ playedCount (updateGameStats u g s t n) := by
  unfold playedCount
  apply filter_length_mono
  intro g' _ hp
  by_cases hg : g' = g
  · subst hg
    simp only [decide_eq_true_eq] at hp ⊢
    rw [update_gamesPlayed]
    omega
  · rw [update_gameStats_ne u g s t n g' hg]
    exact hp

lemma invGM_step (u : UserProfile) (g : Game) (s t n : Int)
    (h : ∃ a, achFind "game_master" u.globalAchievements = some a ∧
      (a.unlocked = true ↔ playedCount u = 5)) :
    ∃ a, achFind "game_master" (updateGameStats u g s t n).globalAchievements =
        some a ∧
      (a.unlocked = true ↔ playedCount (updateGameStats u g s t n) = 5) := by
  obtain ⟨a, ha, hiff⟩ := h
  rw [achFind_gm_update]
  by_cases h5 : playedCount (updateGameStats u g s t n) = 5
  · rw [if_pos h5, ha]
    refine ⟨if a.unlocked then a else unlockMark a n, rfl, ?_⟩
    constructor
    · intro _; exact h5
    · intro _
      by_cases hu : a.unlocked <;> simp [hu, unlockMark]
  · rw [if_neg h5]
    refine ⟨a, ha, ?_⟩
    constructor
    · intro hu
      exfalso
      have h1 := hiff.mp hu
      have h2 := playedCount_mono_step u g s t n
      have h3 := playedCount_le (updateGameStats u g s t n)
      omega
    · intro h5'
      exact absurd h5' h5

lemma invGM_run : ∀ (L : List Session) (u : UserProfile),
    (∃ a, achFind "game_master" u.globalAchievements = some a ∧
      (a.unlocked = true ↔ playedCount u = 5)) →
    ∃ a, achFind "game_master" (runSessions u L).globalAchievements = some a ∧
      (a.unlocked = true ↔ playedCount (runSessions u L) = 5)
  | [], _, h => h
  | x :: xs, u, h => by
    rw [runSessions_cons]
    exact invGM_run xs _ (invGM_step u x.game x.score x.playTime x.now h)

/-! ### Leaderboard lemmas -/

lemma userEntries_length_le (st : Store) (game : Option Game) :
    (userEntries st game).length ≤ 1 := by
  unfold userEntries
  cases st.currentUser with
  | none => cases game <;> simp
  | some u =>
    cases game with
    | none => simp
    | some g =>
      dsimp only
      split_ifs <;> simp

lemma filter_orderedInsert (x : LBEntry) (s : Int) :
    ∀ l : List LBEntry,
      (List.orderedInsert lbRel x l).filter (fun e => decide (e.score = s)) =
        if x.score = s then
          x :: l.filter (fun e => decide (e.score = s))
        else l.filter (fun e => decide (e.score = s))
  | [] => by
    by_cases hx : x.score = s <;> simp [List.orderedInsert, hx]
  | y :: ys => by
    by_cases hr : lbRel x y
    · by_cases hx : x.score = s <;>
        simp [List.orderedInsert, hr, hx, List.filter_cons]
    · have hy : ¬y.score ≤ x.score := hr
      by_cases hx : x.score = s
      · have hys : ¬y.score = s := fun hc => hy (le_of_eq (hx ▸ hc))
        simp [List.orderedInsert, hr, hx, hys, List.filter_cons,
          filter_orderedInsert x s ys]
      · simp [List.orderedInsert, hr, hx, List.filter_cons,
          filter_orderedInsert x s ys]

lemma filter_insertionSort (s : Int) :
    ∀ l : List LBEntry,
      (List.insertionSort lbRel l).filter (fun e => decide (e.score = s)) =
        l.filter (fun e => decide (e.score = s))
  | [] => rfl
  | x :: xs => by
    rw [List.insertionSort, filter_orderedInsert x s _, filter_insertionSort s xs]
    by_cases hx : x.score = s <;> simp [hx, List.filter_cons]

lemma getLeaderboard_eq_sort (st : Store) (game : Option Game) :
    getLeaderboard st game =
      List.insertionSort lbRel (mockData ++ userEntries st game) := by
  rw [getLeaderboard]
  apply List.take_of_length_le
  rw [List.length_insertionSort, List.length_append]
  have h1 := userEntries_length_le st game
  have h5 : mockData.length = 5 := rfl
  omega

/-! ### Claim theorems -/

/-- C1: starting from `create("Ada")` (level 1, zero experience, zeroed
stats, all achievements locked), one `recordSession("snake", 1200, 45)`
yields snake `highScore = 1200`, snake `gamesPlayed = 1`, `first_game` and
`speed_demon` unlocked, `experience = 120`, `level = 2`. -/
theorem firstSnakeSession_scenario :
    (createUser "Ada" 0).level = 1 ∧
    (createUser "Ada" 0).experience = 0 ∧
    (∀ g : Game, (createUser "Ada" 0).gameStats g = getDefaultGameStats) ∧
    (∀ a ∈ (createUser "Ada" 0).globalAchievements, a.unlocked = false) ∧
    ((updateGameStats (createUser "Ada" 0) Game.snake 1200 45 0).gameStats
        Game.snake).highScore = 1200 ∧
    ((updateGameStats (createUser "Ada" 0) Game.snake 1200 45 0).gameStats
        Game.snake).gamesPlayed = 1 ∧
    isUnlocked (updateGameStats (createUser "Ada" 0) Game.snake 1200 45 0)
        "first_game" = true ∧
    isUnlocked (updateGameStats (createUser "Ada" 0) Game.snake 1200 45 0)
        "speed_demon" = true ∧
    (updateGameStats (createUser "Ada" 0) Game.snake 1200 45 0).experience = 120 ∧
    (updateGameStats (createUser "Ada" 0) Game.snake 1200 45 0).level = 2 := by
  refine ⟨rfl, rfl, fun g => rfl, ?_, ?_, ?_, ?_, ?_, rfl, ?_⟩ <;> decide

/-- C2 counterexample: with a single negative score the claimed equality
"highScore = maximum of all scores passed" fails: after
`recordSession("snake", -5, 0)` on a fresh profile, the maximum score ever
passed is `-5` but `highScore` is `0` (the initial value is never replaced
by a smaller score). -/
theorem highScore_not_max_on_negative :
    ((updateGameStats (createUser "Ada" 0) Game.snake (-5) 0 0).gameStats
        Game.snake).highScore ≠
      [((-5 : Int))].foldl max (-5) := by decide

/-- C2 (amended): for every sequence of `recordSession` calls on a single
game kind against a freshly created profile, that game's `highScore`
afterwards equals the maximum of the initial value `0` and all scores
passed in those calls (which is the maximum of the scores whenever any
passed score is non-negative). -/
theorem highScore_eq_foldMax (username : String) (t0 : Int) (g : Game)
    (L : List Session) (hall : ∀ x ∈ L, x.game = g) :
    ((runSessions (createUser username t0) L).gameStats g).highScore =
      L.foldl (fun m x => max m x.score) 0 :=
  run_highScore g L (createUser username t0) hall

/-- Witness for C2 (amended) at a concrete call sequence. -/
theorem highScore_eq_foldMax_witness :
    ((runSessions (createUser "Ada" 0)
          [⟨Game.snake, -5, 0, 1⟩, ⟨Game.snake, 7, 2, 3⟩]).gameStats
        Game.snake).highScore =
      ([⟨Game.snake, -5, 0, 1⟩, ⟨Game.snake, 7, 2, 3⟩] : List Session).foldl
        (fun m x => max m x.score) 0 :=
  highScore_eq_foldMax "Ada" 0 Game.snake
    [⟨Game.snake, -5, 0, 1⟩, ⟨Game.snake, 7, 2, 3⟩] (by decide)

/-- C4: across any sequence of `recordSession` calls the level never
decreases, and whenever a single call changes the level it raises it to
`floor(experience / 100) + 1` computed from the updated experience. -/
theorem level_monotone_and_raise :
    (∀ (u : UserProfile) (L : List Session), u.level ≤ (runSessions u L).level) ∧
    (∀ (u : UserProfile) (g : Game) (s t n : Int),
        (updateGameStats u g s t n).level ≠ u.level →
        (updateGameStats u g s t n).level =
            Int.fdiv (updateGameStats u g s t n).experience 100 + 1 ∧
          u.level < (updateGameStats u g s t n).level) := by
  refine ⟨fun u L => level_le_run L u, fun u g s t n hne => ?_⟩
  rw [update_level, update_experience] at *
  split_ifs at * with h
  · exact ⟨rfl, h⟩
  · exact absurd rfl hne

/-- Witness for C4 at a concrete level-raising call. -/
theorem level_monotone_and_raise_witness :
    (updateGameStats (createUser "Ada" 0) Game.snake 1200 45 0).level =
        Int.fdiv (updateGameStats (createUser "Ada" 0) Game.snake 1200 45 0).experience
          100 + 1 ∧
      (createUser "Ada" 0).level <
        (updateGameStats (createUser "Ada" 0) Game.snake 1200 45 0).level :=
  level_monotone_and_raise.2 (createUser "Ada" 0) Game.snake 1200 45 0 (by decide)

/-- C5 counterexample: experience is not monotone for arbitrary integer
arguments: `recordSession("snake", -20, 0)` on a fresh profile lowers
experience from `0` to `floor(-20 / 10) = -2`. -/
theorem experience_decreases_on_negative :
    (updateGameStats (createUser "Ada" 0) Game.snake (-20) 0 0).experience <
      (createUser "Ada" 0).experience := by decide

/-- C5 (amended): every `recordSession(gameKind, score, playTimeSeconds)`
call against an active profile changes experience by exactly
`floor(score / 10) + floor(playTimeSeconds / 60)`; experience is
monotonically non-decreasing across any sequence of calls whose score and
playTimeSeconds arguments are non-negative (for negative arguments the
floor terms can be negative and experience can decrease). -/
theorem experience_delta_and_monotone :
    (∀ (u : UserProfile) (g : Game) (s t n : Int),
        (updateGameStats u g s t n).experience =
          u.experience + (Int.fdiv s 10 + Int.fdiv t 60)) ∧
    (∀ (u : UserProfile) (L : List Session),
        (∀ x ∈ L, 0 ≤ x.score ∧ 0 ≤ x.playTime) →
        u.experience ≤ (runSessions u L).experience) :=
  ⟨update_experience, fun u L hall => exp_le_run L u hall⟩

/-- Witness for C5 (amended) at a concrete call sequence. -/
theorem experience_delta_and_monotone_witness :
    (createUser "Ada" 0).experience ≤
      (runSessions (createUser "Ada" 0)
          [⟨Game.snake, 15, 30, 1⟩, ⟨Game.pong, 0, 200, 2⟩]).experience :=
  experience_delta_and_monotone.2 (createUser "Ada" 0)
    [⟨Game.snake, 15, 30, 1⟩, ⟨Game.pong, 0, 200, 2⟩] (by decide)

/-- C6: each achievement unlocks at most once: once the first matching
achievement of an id is unlocked, every later call leaves it entirely
unchanged (its `unlocked` flag and `unlockedAt` timestamp are frozen; it is
never re-locked), and any single call either leaves an id's achievement
unchanged or — only if it was still locked — sets `unlocked := true` and
`unlockedAt` to that call's current time. -/
theorem achievement_unlock_once :
    (∀ (u : UserProfile) (L : List Session) (aid : String) (a : Achievement),
        achFind aid u.globalAchievements = some a → a.unlocked = true →
        achFind aid (runSessions u L).globalAchievements = some a) ∧
    (∀ (u : UserProfile) (g : Game) (s t n : Int) (aid : String),
        achFind aid (updateGameStats u g s t n).globalAchievements =
            achFind aid u.globalAchievements ∨
          ∃ a, achFind aid u.globalAchievements = some a ∧ a.unlocked = false ∧
            achFind aid (updateGameStats u g s t n).globalAchievements =
              some (unlockMark a n)) :=
  ⟨fun u L aid a ha hu => frozen_run L u aid a ha hu,
   fun u g s t n aid => stepOk_update u g s t n aid⟩

/-- Witness for C6: `first_game` unlocked at time 7 by the first session
stays unlocked with the same timestamp after a further session. -/
theorem achievement_unlock_once_witness :
    achFind "first_game"
        (runSessions (updateGameStats (createUser "Ada" 0) Game.snake 1200 45 7)
          [⟨Game.snake, 5, 10, 99⟩]).globalAchievements =
      some { id := "first_game", name := "First Steps",
             description := "Play your first game", icon := "🎮",
             unlocked := true, unlockedAt := some 7 } :=
  achievement_unlock_once.1 (updateGameStats (createUser "Ada" 0) Game.snake 1200 45 7)
    [⟨Game.snake, 5, 10, 99⟩] "first_game"
    { id := "first_game", name := "First Steps",
      description := "Play your first game", icon := "🎮",
      unlocked := true, unlockedAt := some 7 }
    (by decide) rfl

/-- C9: for every profile reachable from `create` by a sequence of
`recordSession` calls, the `game_master` achievement is unlocked exactly
when the number of distinct game kinds with `gamesPlayed > 0` equals 5; in
particular it becomes unlocked precisely on the call completing the fifth
distinct kind. -/
theorem game_master_iff_all_played (username : String) (t0 : Int)
    (L : List Session) :
    ∃ a, achFind "game_master"
          (runSessions (createUser username t0) L).globalAchievements = some a ∧
      (a.unlocked = true ↔ playedCount (runSessions (createUser username t0) L) = 5) := by
  apply invGM_run
  refine ⟨{ id := "game_master", name := "Game Master",
            description := "Play all 5 games", icon := "👑",
            unlocked := false, unlockedAt := none }, rfl, ?_⟩
  have hc : playedCount (createUser username t0) = 0 := rfl
  rw [hc]
  simp

/-- C8: with no active profile, `recordSession` is a silent no-op: the
whole store (in-memory profile and persisted record) is unchanged and
`getCurrent()` still returns the absent result. -/
theorem recordSession_noop_without_profile :
    ∀ (st : Store) (g : Game) (s t n : Int),
      st.currentUser = none →
      recordSession st g s t n = st ∧
        getCurrentUser (recordSession st g s t n) = none := by
  intro st g s t n h
  have hst : recordSession st g s t n = st := by
    unfold recordSession
    rw [h]
  exact ⟨hst, by rw [hst, getCurrentUser, h]⟩

/-- Witness for C8 at a concrete empty store. -/
theorem recordSession_noop_without_profile_witness :
    recordSession ⟨none, none⟩ Game.snake 3 4 5 = (⟨none, none⟩ : Store) ∧
      getCurrentUser (recordSession ⟨none, none⟩ Game.snake 3 4 5) = none :=
  recordSession_noop_without_profile ⟨none, none⟩ Game.snake 3 4 5 rfl

/-! ### Average score: running-mean invariant -/

lemma run_avg_inv (g : Game) : ∀ (L : List Session) (u : UserProfile),
    (∀ x ∈ L, x.game = g) → 0 ≤ (u.gameStats g).gamesPlayed →
    ((runSessions u L).gameStats g).gamesPlayed =
        (u.gameStats g).gamesPlayed + (L.length : Int) ∧
    ((runSessions u L).gameStats g).averageScore *
        (((runSessions u L).gameStats g).gamesPlayed : Rat) =
      (u.gameStats g).averageScore * ((u.gameStats g).gamesPlayed : Rat) +
        ((L.map Session.score).sum : Rat)
  | [], u, _, _ => by simp [runSessions]
  | x :: xs, u, hall, hn => by
    have hx : x.game = g := hall x (List.mem_cons_self x xs)
    have hxs : ∀ y ∈ xs, y.game = g := fun y hy => hall y (List.mem_cons_of_mem x hy)
    rw [runSessions_cons, hx]
    set u' := updateGameStats u g x.score x.playTime x.now with hu'
    have hgp : (u'.gameStats g).gamesPlayed = (u.gameStats g).gamesPlayed + 1 :=
      update_gamesPlayed u g x.score x.playTime x.now
    have hn' : 0 ≤ (u'.gameStats g).gamesPlayed := by omega
    obtain ⟨ihgp, ihsum⟩ := run_avg_inv g xs u' hxs hn'
    have hden : (((u.gameStats g).gamesPlayed + 1 : Int) : Rat) ≠ 0 := by
      rw [Int.cast_ne_zero]
      omega
    have havg : (u'.gameStats g).averageScore * ((u'.gameStats g).gamesPlayed : Rat) =
        (u.gameStats g).averageScore * ((u.gameStats g).gamesPlayed : Rat) +
          (x.score : Rat) := by
      rw [hgp, update_avg u g x.score x.playTime x.now]
      push_cast
      rw [div_mul_cancel₀ _ (by push_cast at hden ⊢; exact hden)]
    constructor
    · rw [ihgp, hgp]
      simp only [List.length_cons]
      push_cast
      ring
    · rw [ihsum, havg]
      simp only [List.map_cons, List.sum_cons]
      push_cast
      ring

/-- C3: for every sequence of `recordSession` calls on one game kind
against a freshly created profile, that game's `averageScore` equals the
arithmetic mean of all scores passed (exact rational arithmetic standing
in for IEEE doubles), and each call maintains it incrementally by
`averageScore = (oldAverage * (gamesPlayed - 1) + score) / gamesPlayed`
with the already-incremented `gamesPlayed`, retaining no score history. -/
theorem averageScore_eq_mean :
    (∀ (username : String) (t0 : Int) (g : Game) (L : List Session),
        (∀ x ∈ L, x.game = g) →
        ((runSessions (createUser username t0) L).gameStats g).averageScore =
          ((L.map Session.score).sum : Rat) / (L.length : Rat)) ∧
    (∀ (u : UserProfile) (g : Game) (s t n : Int),
        ((updateGameStats u g s t n).gameStats g).averageScore =
          ((u.gameStats g).averageScore *
              ((((updateGameStats u g s t n).gameStats g).gamesPlayed - 1 : Int) : Rat) +
                (s : Rat)) /
            (((updateGameStats u g s t n).gameStats g).gamesPlayed : Rat)) := by
  constructor
  · intro username t0 g L hall
    cases L with
    | nil =>
      have h0 : ((runSessions (createUser username t0) []).gameStats g).averageScore = 0 :=
        rfl
      rw [h0]
      simp
    | cons y ys =>
      obtain ⟨hgp, hsum⟩ :=
        run_avg_inv g (y :: ys) (createUser username t0) hall (le_refl 0)
      have hz : ((createUser username t0).gameStats g).gamesPlayed = 0 := rfl
      have ha : ((createUser username t0).gameStats g).averageScore = 0 := rfl
      rw [hz] at hgp
      rw [ha, zero_mul, zero_add] at hsum
      have hlen : (((y :: ys : List Session)).length : Rat) ≠ 0 :=
        ne_of_gt (Nat.cast_pos.mpr (by simp))
      rw [eq_div_iff hlen, ← hsum, hgp]
      push_cast
      ring
  · intro u g s t n
    rw [update_avg, update_gamesPlayed]
    push_cast
    ring_nf

/-- Witness for C3 at a concrete two-call sequence. -/
theorem averageScore_eq_mean_witness :
    ((runSessions (createUser "Ada" 0)
          [⟨Game.snake, 10, 0, 1⟩, ⟨Game.snake, 20, 0, 2⟩]).gameStats
        Game.snake).averageScore =
      ((([⟨Game.snake, 10, 0, 1⟩, ⟨Game.snake, 20, 0, 2⟩] : List Session).map
            Session.score).sum : Rat) /
        (([⟨Game.snake, 10, 0, 1⟩, ⟨Game.snake, 20, 0, 2⟩] : List Session).length : Rat) :=
  averageScore_eq_mean.1 "Ada" 0 Game.snake
    [⟨Game.snake, 10, 0, 1⟩, ⟨Game.snake, 20, 0, 2⟩] (by decide)

/-- C10: for every profile reachable from `create` by any sequence of
`recordSession` calls with arbitrary integer scores, every game's
`highScore` and `gamesPlayed` are non-negative. -/
theorem stats_nonneg_reachable (username : String) (t0 : Int)
    (L : List Session) (g : Game) :
    0 ≤ ((runSessions (createUser username t0) L).gameStats g).highScore ∧
    0 ≤ ((runSessions (createUser username t0) L).gameStats g).gamesPlayed :=
  nonneg_run g L (createUser username t0) (le_refl 0) (le_refl 0)

/-- C7: for every store state, `leaderboard(gameKind)` is sorted descending
by score, has at most 10 rows, is stable (for each score value, the rows
with that score appear in the same order as in the merged input list), and
its content is exactly the five built-in mock entries plus one entry with
the active profile's high score — the latter present exactly when a profile
is active, a game kind was given, and that high score is positive. -/
theorem leaderboard_spec (st : Store) (game : Option Game) :
    List.Sorted lbRel (getLeaderboard st game) ∧
    (getLeaderboard st game).length ≤ 10 ∧
    (∀ s : Int,
        (getLeaderboard st game).filter (fun e => decide (e.score = s)) =
          (mockData ++ userEntries st game).filter (fun e => decide (e.score = s))) ∧
    (∀ (u : UserProfile) (g : Game), st.currentUser = some u → game = some g →
        0 < (u.gameStats g).highScore →
        List.Perm (getLeaderboard st game)
          (mockData ++ [{ username := u.username,
                          score := (u.gameStats g).highScore, game := some g }])) ∧
    ((∀ (u : UserProfile) (g : Game),
        ¬(st.currentUser = some u ∧ game = some g ∧
            0 < (u.gameStats g).highScore)) →
        List.Perm (getLeaderboard st game) mockData) := by
  have hsort := getLeaderboard_eq_sort st game
  have hperm : List.Perm (getLeaderboard st game) (mockData ++ userEntries st game) := by
    rw [hsort]
    exact List.perm_insertionSort lbRel _
  refine ⟨?_, ?_, ?_, ?_, ?_⟩
  · rw [hsort]
    exact List.sorted_insertionSort lbRel _
  · rw [getLeaderboard, List.length_take]
    exact min_le_left _ _
  · intro s
    rw [hsort]
    exact filter_insertionSort s _
  · intro u g hcu hg hhs
    have hue : userEntries st game =
        [{ username := u.username, score := (u.gameStats g).highScore,
           game := some g }] := by
      unfold userEntries
      rw [hcu, hg]
      exact if_pos hhs
    rw [hue] at hperm
    exact hperm
  · intro hnone
    have hue : userEntries st game = [] := by
      unfold userEntries
      cases hcu : st.currentUser with
      | none => cases game <;> rfl
      | some u =>
        cases hg : game with
        | none => rfl
        | some g =>
          dsimp only
          rw [if_neg]
          intro hhs
          exact hnone u g ⟨hcu, hg, hhs⟩
    rw [hue, List.append_nil] at hperm
    exact hperm

/-- Witness for C7 at a concrete store whose profile has snake high score
1200. -/
theorem leaderboard_spec_witness :
    List.Perm
      (getLeaderboard
        ⟨some (updateGameStats (createUser "Ada" 0) Game.snake 1200 45 0), none⟩
        (some Game.snake))
      (mockData ++
        [{ username := (updateGameStats (createUser "Ada" 0) Game.snake 1200 45 0).username,
           score := (((updateGameStats (createUser "Ada" 0) Game.snake 1200 45 0).gameStats
               Game.snake)).highScore,
           game := some Game.snake }]) :=
  (leaderboard_spec
      ⟨some (updateGameStats (createUser "Ada" 0) Game.snake 1200 45 0), none⟩
      (some Game.snake)).2.2.2.1
    (updateGameStats (createUser "Ada" 0) Game.snake 1200 45 0) Game.snake
    rfl rfl (by decide)

end GamePlatform
